import Mathlib

/-!
Verification of the SNI proxy (main.go) against its specification.

Go strings are modelled as lists of characters, byte buffers as lists of
natural numbers (each below 256 for real traffic).  Pure functions of the
source (parseRoute, parseRoutes, createDialer, RouteMap.Lookup and the
helpers they call from the Go standard library) are translated directly.
The per-connection handler is modelled as an event trace, and the relay
teardown as a small labelled transition system.
-/

set_option maxRecDepth 4000

abbrev GoString := List Char

abbrev GoBytes := List Nat

/-- String literal to GoString conversion. -/
def gs (s : String) : GoString := s.data

/-- unicode.IsSpace restricted to the Latin-1 range, as used by
strings.TrimSpace (space, tab, newline, vertical tab, form feed,
carriage return, NEL, NBSP). -/
def goIsSpace (c : Char) : Bool :=
  c = ' ' || c.val = 9 || c.val = 10 || c.val = 11 || c.val = 12 ||
  c.val = 13 || c.val = 0x85 || c.val = 0xA0

/-- strings.TrimSpace: drop leading and trailing white space. -/
def trimSpace (s : GoString) : GoString :=
  ((s.dropWhile goIsSpace).reverse.dropWhile goIsSpace).reverse

/-- Split a string at the LAST occurrence of a character
(strings.LastIndex followed by the two slices); none when absent. -/
def splitLast (c : Char) : GoString → Option (GoString × GoString)
  | [] => none
  | x :: xs =>
    match splitLast c xs with
    | some (p, q) => some (x :: p, q)
    | none => if x = c then some ([], xs) else none

/-- Split a string at the FIRST occurrence of a character
(strings.SplitN with n = 2); none when absent. -/
def splitFirst (c : Char) : GoString → Option (GoString × GoString)
  | [] => none
  | x :: xs =>
    if x = c then some ([], xs)
    else (splitFirst c xs).map (fun pq => (x :: pq.1, pq.2))

/-- Index of the last occurrence of a character. -/
def idxOfLast (c : Char) : GoString → Option Nat
  | [] => none
  | x :: xs =>
    match idxOfLast c xs with
    | some i => some (i + 1)
    | none => if x = c then some 0 else none

/-- Index of the first occurrence of a character. -/
def idxOfFirst (c : Char) : GoString → Option Nat
  | [] => none
  | x :: xs => if x = c then some 0 else (idxOfFirst c xs).map (· + 1)

/-- Error cases of net.SplitHostPort. -/
inductive HPErr : Type
  | missingPort
  | tooManyColons
  | missingRBracket
  | unexpectedLBracket
  | unexpectedRBracket
deriving Repr, DecidableEq

/-- net.SplitHostPort from the Go standard library: split host:port at the
last colon, with the bracketed-IPv6 cases handled as in the Go source. -/
def splitHostPort (hostport : GoString) : Except HPErr (GoString × GoString) :=
  match idxOfLast ':' hostport with
  | none => .error .missingPort
  | some i =>
    if hostport.head? = some '[' then
      match idxOfFirst ']' hostport with
      | none => .error .missingRBracket
      | some e =>
        if e + 1 = hostport.length then .error .missingPort
        else if e + 1 = i then
          if (hostport.drop 1).contains '[' then .error .unexpectedLBracket
          else if (hostport.drop (e + 1)).contains ']' then .error .unexpectedRBracket
          else .ok ((hostport.drop 1).take (e - 1), hostport.drop (i + 1))
        else if (hostport.drop (e + 1)).head? = some ':' then .error .tooManyColons
        else .error .missingPort
    else
      if (hostport.take i).contains ':' then .error .tooManyColons
      else if hostport.contains '[' then .error .unexpectedLBracket
      else if hostport.contains ']' then .error .unexpectedRBracket
      else .ok (hostport.take i, hostport.drop (i + 1))

/-- Decimal digit value of a character, none for non-digits. -/
def digitVal (c : Char) : Option Nat :=
  if '0' ≤ c ∧ c ≤ '9' then some (c.toNat - '0'.toNat) else none

/-- Accumulate decimal digits left to right; none on any non-digit. -/
def digitsVal : GoString → Nat → Option Nat
  | [], acc => some acc
  | c :: cs, acc =>
    match digitVal c with
    | none => none
    | some d => digitsVal cs (acc * 10 + d)

/-- strconv.Atoi: optional sign, one or more decimal digits, 64-bit range
(out-of-range values are an error). -/
def atoi (s : GoString) : Option Int :=
  match s with
  | [] => none
  | _ =>
    let signed : Bool × GoString :=
      match s with
      | '-' :: rest => (true, rest)
      | '+' :: rest => (false, rest)
      | _ => (false, s)
    match signed.2 with
    | [] => none
    | ds =>
      match digitsVal ds 0 with
      | none => none
      | some n =>
        if signed.1 then (if n ≤ 2 ^ 63 then some (-(n : Int)) else none)
        else (if n < 2 ^ 63 then some (n : Int) else none)

/-- RouteConfig from main.go: a single routing rule. -/
structure RouteConfig where
  Host : GoString
  Target : GoString
  Passthrough : Bool
  ProxyAddr : GoString
deriving Repr, DecidableEq

/-- The error cases produced by parseRoute and parseRoutes, one
constructor per fmt.Errorf site. -/
inductive RouteErr : Type
  | invalidProxy (addr : GoString)
  | invalidFormat (route : GoString)
  | emptyHostname
  | targetRequired
  | invalidPort (port : GoString)
  | invalidTarget (target : GoString)
  | duplicateRoute (host : GoString)
deriving Repr, DecidableEq

/-- The part of parseRoute after the proxy suffix has been split off:
old-format rejection, passthrough, or hostname=target parsing. -/
def parseRouteRest (remainder proxyAddr route : GoString) :
    Except RouteErr RouteConfig :=
  if remainder.contains ':' && !(remainder.contains '=') then
    .error (.invalidFormat route)
  else if !(remainder.contains '=') then
    if trimSpace remainder = [] then .error .emptyHostname
    else .ok { Host := trimSpace remainder, Target := [], Passthrough := true,
               ProxyAddr := proxyAddr }
  else
    match splitFirst '=' remainder with
    | none => .error (.invalidFormat route)
    | some (p0, p1) =>
      if trimSpace p0 = [] then .error .emptyHostname
      else if trimSpace p1 = [] then .error .targetRequired
      else if (trimSpace p1).head? = some ':' then
        match atoi ((trimSpace p1).drop 1) with
        | none => .error (.invalidPort ((trimSpace p1).drop 1))
        | some _ =>
          .ok { Host := trimSpace p0, Target := gs "localhost" ++ trimSpace p1,
                Passthrough := false, ProxyAddr := proxyAddr }
      else
        match splitHostPort (trimSpace p1) with
        | .error _ => .error (.invalidTarget (trimSpace p1))
        | .ok _ =>
          .ok { Host := trimSpace p0, Target := trimSpace p1,
                Passthrough := false, ProxyAddr := proxyAddr }

/-- parseRoute from main.go: split off the SOCKS5 proxy suffix at the last
at-sign, validate it when non-empty, then parse the remainder. -/
def parseRoute (route : GoString) : Except RouteErr RouteConfig :=
  match splitLast '@' route with
  | some (before, after) =>
    let proxyAddr := trimSpace after
    let remainder := trimSpace before
    if proxyAddr ≠ [] then
      match splitHostPort proxyAddr with
      | .error _ => .error (.invalidProxy proxyAddr)
      | .ok _ => parseRouteRest remainder proxyAddr route
    else parseRouteRest remainder proxyAddr route
  | none => parseRouteRest route [] route

/-- RouteMap from main.go; the Go map is modelled as an association list
(iteration order is never observed, only membership and lookup). -/
structure RouteMap where
  rules : List (GoString × RouteConfig)
deriving Repr, DecidableEq

/-- RouteMap.Lookup: exact string equality lookup in the rules map. -/
def RouteMap.Lookup (rm : RouteMap) (host : GoString) : Option RouteConfig :=
  (rm.rules.find? (fun p => p.1 == host)).map (·.2)

/-- Membership test used for the duplicate check in parseRoutes. -/
def RouteMap.hasHost (rm : RouteMap) (host : GoString) : Bool :=
  rm.rules.any (fun p => p.1 == host)

/-- The fold inside parseRoutes: parse each route string, reject a
hostname that is already present, insert otherwise. -/
def parseRoutesGo (rm : RouteMap) : List GoString → Except RouteErr RouteMap
  | [] => .ok rm
  | r :: rs =>
    match parseRoute r with
    | .error e => .error e
    | .ok cfg =>
      if rm.hasHost cfg.Host then .error (.duplicateRoute cfg.Host)
      else parseRoutesGo { rules := rm.rules ++ [(cfg.Host, cfg)] } rs

/-- parseRoutes from main.go. -/
def parseRoutes (routes : List GoString) : Except RouteErr RouteMap :=
  parseRoutesGo { rules := [] } routes

/-- The value returned by createDialer: a capability describing how the
returned function will dial, not an open connection. -/
inductive DialFn : Type
  | direct (timeoutSecs : Nat)
  | socks5 (proxyAddr : GoString) (timeoutSecs : Nat)
deriving Repr, DecidableEq

/-- Error case of createDialer. -/
inductive DialerErr : Type
  | invalidProxyAddr (addr : GoString)
deriving Repr, DecidableEq

/-- Network operations; used to make explicit which functions open
connections. -/
inductive NetOp : Type
  | connect (addr : GoString)
  | socksConnect (proxyAddr destAddr : GoString)
deriving Repr, DecidableEq

/-- createDialer from main.go, paired with the list of network operations
it performs itself.  Constructing net.Dialer and proxy.SOCKS5 opens no
connection (and proxy.SOCKS5 with a tcp network never fails), so the
operation list is empty on every path. -/
def createDialerTr (socksAddr : GoString) (timeoutSecs : Nat) :
    Except DialerErr DialFn × List NetOp :=
  if socksAddr = [] then (.ok (.direct timeoutSecs), [])
  else
    match splitHostPort socksAddr with
    | .error _ => (.error (.invalidProxyAddr socksAddr), [])
    | .ok _ => (.ok (.socks5 socksAddr timeoutSecs), [])

/-- createDialer, result component. -/
def createDialer (socksAddr : GoString) (timeoutSecs : Nat) :
    Except DialerErr DialFn :=
  (createDialerTr socksAddr timeoutSecs).1

/-- Invoking the function returned by createDialer: only here is a
connection opened, to the requested destination, directly or through the
SOCKS5 proxy. -/
def DialFn.run (f : DialFn) (destAddr : GoString) : List NetOp :=
  match f with
  | .direct _ => [.connect destAddr]
  | .socks5 p _ => [.socksConnect p destAddr]

/-- Big-endian 16-bit value of two bytes. -/
def be16 (a b : Nat) : Nat := a * 256 + b

/-- Big-endian 24-bit value of three bytes. -/
def be24 (a b c : Nat) : Nat := (a * 256 + b) * 256 + c

/-- Scan the server_name entry list for the first entry of name type 0;
each entry is a 1-byte name type, a 2-byte length and that many name
bytes.  A declared length exceeding the remaining bytes gives none. -/
def findName : GoBytes → Option GoBytes
  | t :: l0 :: l1 :: rest =>
    let nlen := be16 l0 l1
    if nlen ≤ rest.length then
      if t = 0 then some (rest.take nlen)
      else findName (rest.drop nlen)
    else none
  | _ => none
termination_by l => l.length
decreasing_by
  simp only [List.length_drop, List.length_cons]
  omega

/-- Parse server_name extension data: a 2-byte list length followed by the
entry list, scanned by findName. -/
def parseServerName (d : GoBytes) : Option GoBytes :=
  match d with
  | l0 :: l1 :: rest =>
    let llen := be16 l0 l1
    if llen ≤ rest.length then findName (rest.take llen) else none
  | _ => none

/-- Scan the extensions block for the first extension of type 0
(server_name); each extension is a 2-byte type, a 2-byte length and that
many data bytes. -/
def findSNIExt : GoBytes → Option GoBytes
  | t0 :: t1 :: l0 :: l1 :: rest =>
    let elen := be16 l0 l1
    if elen ≤ rest.length then
      if be16 t0 t1 = 0 then parseServerName (rest.take elen)
      else findSNIExt (rest.drop elen)
    else none
  | _ => none
termination_by l => l.length
decreasing_by
  simp only [List.length_drop, List.length_cons]
  omega

/-- Skip a field prefixed by a 1-byte length; none when the declared
length exceeds the remaining bytes. -/
def skipLen1 (l : GoBytes) : Option GoBytes :=
  match l with
  | n :: rest => if n ≤ rest.length then some (rest.drop n) else none
  | [] => none

/-- Skip a field prefixed by a 2-byte big-endian length; none when the
declared length exceeds the remaining bytes. -/
def skipLen2 (l : GoBytes) : Option GoBytes :=
  match l with
  | a :: b :: rest =>
    let n := be16 a b
    if n ≤ rest.length then some (rest.drop n) else none
  | _ => none

/-- The extensions block: a 2-byte length followed by that many bytes of
extensions, scanned for server_name; absent or over-length gives none. -/
def extBlock (l : GoBytes) : Option GoBytes :=
  match l with
  | e0 :: e1 :: erest =>
    if be16 e0 e1 ≤ erest.length then findSNIExt (erest.take (be16 e0 e1))
    else none
  | _ => none

/-- Parse a ClientHello body after the 4-byte handshake message header:
2-byte legacy version, 32-byte random, length-prefixed session id, cipher
suites and compression methods, then the extensions block.  A short or
missing field gives none. -/
def parseHelloBody (body : GoBytes) : Option GoBytes :=
  if 34 ≤ body.length then
    (skipLen1 (body.drop 34)).bind fun afterSid =>
      (skipLen2 afterSid).bind fun afterCs =>
        (skipLen1 afterCs).bind extBlock
  else none

/-- Parse a handshake message: 1-byte type 1 (client_hello), 3-byte body
length, then the body.  Type mismatch, a short header or an over-length
body declaration gives none. -/
def parseHandshakeMsg (payload : GoBytes) : Option GoBytes :=
  match payload with
  | mt :: b0 :: b1 :: b2 :: mrest =>
    if mt = 1 then
      if be24 b0 b1 b2 ≤ mrest.length then
        parseHelloBody (mrest.take (be24 b0 b1 b2))
      else none
    else none
  | _ => none

/-- Parse one TLS record holding a ClientHello: 5-byte record header with
type 22 (handshake) and a 2-byte payload length, then the handshake
message.  Any type mismatch or over-length declaration gives none. -/
def parseCHRecord (buf : GoBytes) : Option GoBytes :=
  match buf with
  | rt :: _v1 :: _v2 :: l0 :: l1 :: rest =>
    if rt = 22 then
      if be16 l0 l1 ≤ rest.length then
        parseHandshakeMsg (rest.take (be16 l0 l1))
      else none
    else none
  | _ => none

/-- The result record of ParseClientHello; only the SNI field is used by
the handler. -/
structure ParsedHello where
  SNI : GoString
deriving Repr, DecidableEq

/-- Modelled from the spec: the SNI Extractor (ParseClientHello), whose
defining source file is not part of the given sources; main.go only calls
it.  Spec section 4.1: decode one TLS record containing a ClientHello and
return the first name-type-0 server_name entry as the hostname, with a
found flag; every mismatch or over-length sub-field yields not-found. -/
def ParseClientHello (buf : GoBytes) : ParsedHello × Bool :=
  match parseCHRecord buf with
  | some name => ({ SNI := name.map Char.ofNat }, true)
  | none => ({ SNI := [] }, false)

/-- Big-endian 2-byte encoding of a length. -/
def enc16 (n : Nat) : GoBytes := [n / 256, n % 256]

/-- Big-endian 3-byte encoding of a length. -/
def enc24 (n : Nat) : GoBytes := [n / 65536, n / 256 % 256, n % 256]

/-- One server_name entry. -/
structure SNIName where
  nameType : Nat
  name : GoBytes
deriving Repr, DecidableEq

/-- Encode one server_name entry. -/
def encName (e : SNIName) : GoBytes :=
  e.nameType :: enc16 e.name.length ++ e.name

/-- Encode server_name extension data from its entry list. -/
def encSN (entries : List SNIName) : GoBytes :=
  enc16 (entries.map encName).flatten.length ++ (entries.map encName).flatten

/-- One ClientHello extension. -/
structure TLSExt where
  extType : Nat
  extData : GoBytes
deriving Repr, DecidableEq

/-- Encode one extension. -/
def encExt (x : TLSExt) : GoBytes :=
  enc16 x.extType ++ enc16 x.extData.length ++ x.extData

/-- Encode an extension list. -/
def encExts (xs : List TLSExt) : GoBytes := (xs.map encExt).flatten

/-- A structured ClientHello, the well-formed shapes of section 4.1. -/
structure CHello where
  legacyVersion : GoBytes
  random : GoBytes
  sessionId : GoBytes
  cipherSuites : GoBytes
  compressionMethods : GoBytes
  extensions : List TLSExt
deriving Repr, DecidableEq

/-- Encode a ClientHello body up to and including the compression
methods (no extensions block). -/
def encBodyCore (ch : CHello) : GoBytes :=
  ch.legacyVersion ++ ch.random ++
  (ch.sessionId.length :: ch.sessionId) ++
  (enc16 ch.cipherSuites.length ++ ch.cipherSuites) ++
  (ch.compressionMethods.length :: ch.compressionMethods)

/-- Encode a full ClientHello body with its extensions block. -/
def encBody (ch : CHello) : GoBytes :=
  encBodyCore ch ++ enc16 (encExts ch.extensions).length ++ encExts ch.extensions

/-- Wrap a handshake body in a handshake message header of type 1. -/
def wrapMsg (body : GoBytes) : GoBytes := 1 :: enc24 body.length ++ body

/-- Wrap a handshake message in a TLS record header of type 22. -/
def wrapRecord (v1 v2 : Nat) (msg : GoBytes) : GoBytes :=
  22 :: v1 :: v2 :: enc16 msg.length ++ msg

/-- Encode a full well-formed record holding one ClientHello. -/
def encRecord (v1 v2 : Nat) (ch : CHello) : GoBytes :=
  wrapRecord v1 v2 (wrapMsg (encBody ch))

/-- All elements of a buffer are bytes. -/
def isBytes (l : GoBytes) : Prop := ∀ b ∈ l, b < 256

/-- Well-formedness of a structured ClientHello: field widths as the spec
fixes them, every length within its field's range, every element a
byte. -/
def CHello.wf (ch : CHello) : Prop :=
  ch.legacyVersion.length = 2 ∧ ch.random.length = 32 ∧
  ch.sessionId.length < 256 ∧ ch.cipherSuites.length < 65536 ∧
  ch.compressionMethods.length < 256 ∧
  (encExts ch.extensions).length < 65536 ∧
  (encBody ch).length < 16777216 ∧
  (wrapMsg (encBody ch)).length < 65536 ∧
  isBytes ch.legacyVersion ∧ isBytes ch.random ∧ isBytes ch.sessionId ∧
  isBytes ch.cipherSuites ∧ isBytes ch.compressionMethods ∧
  (∀ x ∈ ch.extensions, x.extType < 65536 ∧ x.extData.length < 65536 ∧
    isBytes x.extData)

/-- ReadingHello from handleConn: io.CopyN of the 5-byte record header,
then io.CopyN of the declared payload length, both accumulated in the
replay buffer; a short read aborts.  Returns the buffer and the unread
live remainder of the client stream. -/
def helloRead : GoBytes → Option (GoBytes × GoBytes)
  | b0 :: b1 :: b2 :: l0 :: l1 :: rest =>
    let len := be16 l0 l1
    if len ≤ rest.length then
      some ([b0, b1, b2, l0, l1] ++ rest.take len, rest.drop len)
    else none
  | _ => none

/-- The declared payload length of a client stream (bytes 3 and 4 of the
record header, big-endian), 0 when the stream is shorter than a header. -/
def declaredLen (cs : GoBytes) : Nat :=
  match cs with
  | _ :: _ :: _ :: l0 :: l1 :: _ => be16 l0 l1
  | _ => 0

/-- io.MultiReader(&buf, conn) as read by io.Copy(backendConn, c): the
byte sequence the backend receives is the replay buffer followed by the
live client stream. -/
def backendInput (buf live : GoBytes) : GoBytes := buf ++ live

/-- Observable events of one run of handleConn, in program order. -/
inductive Ev : Type
  | setDeadline (secs : Nat)
  | clearDeadline
  | readClient (bytes : GoBytes)
  | logLine
  | dialerCreated
  | dialBackend (addr : GoString)
  | sendBackend (bytes : GoBytes)
  | sendClient (bytes : GoBytes)
  | recvErrCh
  | closeBackend
  | closeClient
deriving Repr, DecidableEq

/-- The event trace of handleConn on a given client byte stream and route
map.  dialOk tells whether the backend dial succeeds, backendBytes is the
stream the backend would send, copyErr whether the first finished copy
reports a non-EOF error.  The two relay copies run concurrently; their
events appear here in an arbitrary sequential order, after the events
that precede the spawn in program order. -/
def handleConnTrace (cs : GoBytes) (rm : RouteMap) (dialOk : Bool)
    (backendBytes : GoBytes) (copyErr : Bool) : List Ev :=
  Ev.setDeadline 10 ::
  match cs with
  | b0 :: b1 :: b2 :: l0 :: l1 :: rest =>
    let hdr : GoBytes := [b0, b1, b2, l0, l1]
    Ev.readClient hdr ::
    (let len := be16 l0 l1
     if len ≤ rest.length then
      let payload := rest.take len
      let live := rest.drop len
      Ev.readClient payload ::
      (let buf := hdr ++ payload
       let parsed := ParseClientHello buf
       if !parsed.2 || parsed.1.SNI.isEmpty then [Ev.logLine, Ev.closeClient]
       else
        match rm.Lookup parsed.1.SNI with
        | none => [Ev.logLine, Ev.closeClient]
        | some cfg =>
          let backend := if cfg.Passthrough then parsed.1.SNI ++ gs ":443"
                         else cfg.Target
          Ev.logLine ::
          match createDialer cfg.ProxyAddr 10 with
          | .error _ => [Ev.logLine, Ev.closeClient]
          | .ok _ =>
            Ev.dialerCreated ::
            Ev.clearDeadline ::
            Ev.dialBackend backend ::
            if !dialOk then [Ev.logLine, Ev.closeClient]
            else
              Ev.sendBackend (backendInput buf live) ::
              Ev.readClient live ::
              Ev.sendClient backendBytes ::
              Ev.recvErrCh ::
              if copyErr then [Ev.logLine, Ev.closeBackend, Ev.closeClient]
              else [Ev.closeBackend, Ev.closeClient])
     else [Ev.logLine, Ev.closeClient])
  | _ => [Ev.logLine, Ev.closeClient]

/-- Number of client-read events in a trace. -/
def countReads (t : List Ev) : Nat :=
  (t.filter fun e => match e with | .readClient _ => true | _ => false).length

/-- The trace segment before the deadline is cleared (the whole trace when
it never is): the reads here ran under the 10-second deadline. -/
def beforeClear (t : List Ev) : List Ev :=
  t.takeWhile fun e => match e with | .clearDeadline => false | _ => true

/-- Phases of the handler during relay teardown: blocked on the error
channel, one message received, backend socket closed (the inner defer),
both sockets closed (the outer defer). -/
inductive HPhase : Type
  | waiting
  | received
  | backendClosed
  | bothClosed
deriving Repr, DecidableEq

/-- State of the relay phase of one connection: whether each directional
copy has terminated (aDone: client to backend, bDone: backend to client),
how many bytes are still pending unread on the backend-to-client
direction, how many completion messages sit in the errCh channel
(capacity 2), and the handler phase. -/
structure RelaySt where
  aDone : Bool
  bDone : Bool
  bPending : Nat
  chanMsgs : Nat
  phase : HPhase
deriving Repr, DecidableEq

/-- Interleaving steps of the relay phase, from main.go lines 264-280:
each copy goroutine, when it terminates, sends one message on errCh; the
handler performs a single receive and then returns, which runs the
deferred backendConn.Close and conn.Close in that order.  No step of the
handler waits on anything except that single receive. -/
inductive RelayStep : RelaySt → RelaySt → Prop
  | finishA (s : RelaySt) (h : s.aDone = false) :
      RelayStep s { s with aDone := true, chanMsgs := s.chanMsgs + 1 }
  | finishB (s : RelaySt) (h : s.bDone = false) :
      RelayStep s { s with bDone := true, bPending := 0,
                           chanMsgs := s.chanMsgs + 1 }
  | recvErr (s : RelaySt) (h1 : s.phase = .waiting) (h2 : 0 < s.chanMsgs) :
      RelayStep s { s with chanMsgs := s.chanMsgs - 1, phase := .received }
  | closeBackend (s : RelaySt) (h : s.phase = .received) :
      RelayStep s { s with phase := .backendClosed }
  | closeClient (s : RelaySt) (h : s.phase = .backendClosed) :
      RelayStep s { s with phase := .bothClosed }

instance {ε α : Type} [DecidableEq ε] [DecidableEq α] :
    DecidableEq (Except ε α) := fun x y =>
  match x, y with
  | .ok a, .ok b =>
    if h : a = b then .isTrue (congrArg Except.ok h)
    else .isFalse (fun hc => h (Except.ok.inj hc))
  | .error a, .error b =>
    if h : a = b then .isTrue (congrArg Except.error h)
    else .isFalse (fun hc => h (Except.error.inj hc))
  | .ok _, .error _ => .isFalse (fun hc => Except.noConfusion hc)
  | .error _, .ok _ => .isFalse (fun hc => Except.noConfusion hc)

/-- The route table built from the single route string example.com. -/
def exampleTable : RouteMap :=
  { rules := [(gs "example.com",
      { Host := gs "example.com", Target := [], Passthrough := true,
        ProxyAddr := [] })] }

/-- C4: parseRoute on the five documented inputs: a bare hostname gives a
passthrough descriptor with no target and no proxy; hostname=:8080 gives
a routed descriptor with target localhost:8080; a full
hostname=target@proxy string gives a routed descriptor with that target
and proxy; hostname:port with no equals sign is a format error; a
hostname with an equals sign and empty target is an empty-target
error. -/
theorem parseRoute_examples :
    parseRoute (gs "example.com") =
      .ok { Host := gs "example.com", Target := [], Passthrough := true,
            ProxyAddr := [] } ∧
    parseRoute (gs "example.com=:8080") =
      .ok { Host := gs "example.com", Target := gs "localhost:8080",
            Passthrough := false, ProxyAddr := [] } ∧
    parseRoute (gs "example.com=backend.local:443@127.0.0.1:1080") =
      .ok { Host := gs "example.com", Target := gs "backend.local:443",
            Passthrough := false, ProxyAddr := gs "127.0.0.1:1080" } ∧
    parseRoute (gs "example.com:443") =
      .error (.invalidFormat (gs "example.com:443")) ∧
    parseRoute (gs "example.com=") = .error .targetRequired := by
  refine ⟨?_, ?_, ?_, ?_, ?_⟩ <;> decide

/-- C10: route lookup is exact, case-sensitive string equality: a lookup
finds a descriptor exactly when the hostname is character-for-character a
configured key, and on the table built from route example.com neither
EXAMPLE.COM nor www.example.com matches while example.com does. -/
theorem lookup_exact_match :
    (∀ (rm : RouteMap) (h : GoString),
      (rm.Lookup h).isSome = true ↔ ∃ cfg, (h, cfg) ∈ rm.rules) ∧
    parseRoutes [gs "example.com"] = .ok exampleTable ∧
    (exampleTable.Lookup (gs "example.com")).isSome = true ∧
    exampleTable.Lookup (gs "EXAMPLE.COM") = none ∧
    exampleTable.Lookup (gs "www.example.com") = none := by
  refine ⟨?_, by decide, by decide, by decide, by decide⟩
  intro rm h
  unfold RouteMap.Lookup
  rw [Option.isSome_map']
  rw [List.find?_isSome]
  constructor
  · rintro ⟨x, hx, he⟩
    refine ⟨x.2, ?_⟩
    have hx1 : x.1 = h := by simpa using he
    cases x
    simp_all
  · rintro ⟨cfg, hcfg⟩
    exact ⟨(h, cfg), hcfg, by simp⟩

/-- C7: createDialer fails (returning no dial function) whenever its
proxy address is non-empty and not syntactically host:port; with an
empty proxy address it returns the direct dial function; on no path does
createDialer itself perform a network operation — a connection is opened
only when the returned function is invoked. -/
theorem createDialer_spec :
    (∀ (addr : GoString) (t : Nat) (e : HPErr), addr ≠ [] →
      splitHostPort addr = .error e →
      createDialerTr addr t = (.error (.invalidProxyAddr addr), [])) ∧
    (∀ t, createDialerTr [] t = (.ok (.direct t), [])) ∧
    (∀ addr t, (createDialerTr addr t).2 = []) ∧
    (∀ t dest, (DialFn.direct t).run dest = [.connect dest]) ∧
    (∀ p t dest, (DialFn.socks5 p t).run dest = [.socksConnect p dest]) := by
  refine ⟨?_, fun t => rfl, ?_, fun t dest => rfl, fun p t dest => rfl⟩
  · intro addr t e hne hsplit
    unfold createDialerTr
    rw [if_neg hne, hsplit]
  · intro addr t
    unfold createDialerTr
    by_cases h : addr = []
    · rw [if_pos h]
    · rw [if_neg h]
      cases hs : splitHostPort addr <;> simp

/-- Witness for C7 at concrete inputs: the address noport is non-empty
and rejected by splitHostPort, so the factory fails without any network
operation. -/
theorem createDialer_spec_witness :
    createDialerTr (gs "noport") 10 =
      (.error (.invalidProxyAddr (gs "noport")), []) :=
  createDialer_spec.1 (gs "noport") 10 HPErr.missingPort (by decide) (by decide)

/-- C6: as soon as one directional copy has terminated (a message sits in
errCh and the handler still waits), the handler alone — in three steps
that no other task needs to join: the single channel receive and the two
deferred closes — reaches the state with both sockets closed, leaving the
other direction's termination flag and its pending unread bytes
untouched (no draining, no waiting for the second copy); moreover no
step ever returns the handler to the waiting phase, so it never performs
a second receive. -/
theorem relay_teardown :
    (∀ s : RelaySt, s.phase = HPhase.waiting → 0 < s.chanMsgs →
      ∃ s1 s2 s3, RelayStep s s1 ∧ RelayStep s1 s2 ∧ RelayStep s2 s3 ∧
        s3.phase = HPhase.bothClosed ∧ s3.aDone = s.aDone ∧
        s3.bDone = s.bDone ∧ s3.bPending = s.bPending) ∧
    (∀ s s' : RelaySt, RelayStep s s' → s'.phase = HPhase.waiting →
      s.phase = HPhase.waiting) := by
  constructor
  · intro s h1 h2
    exact ⟨_, _, _, RelayStep.recvErr s h1 h2, RelayStep.closeBackend _ rfl,
      RelayStep.closeClient _ rfl, rfl, rfl, rfl, rfl⟩
  · intro s s' hstep
    cases hstep <;> simp_all

/-- Witness for C6: from the state where the client-to-backend copy has
finished, its message is queued, and the backend-to-client copy still
runs with 7 pending bytes, the handler closes both sockets with the
other copy still unfinished and its bytes undrained. -/
theorem relay_teardown_witness :
    ∃ s1 s2 s3,
      RelayStep { aDone := true, bDone := false, bPending := 7,
                  chanMsgs := 1, phase := HPhase.waiting } s1 ∧
      RelayStep s1 s2 ∧ RelayStep s2 s3 ∧
      s3.phase = HPhase.bothClosed ∧ s3.aDone = true ∧
      s3.bDone = false ∧ s3.bPending = 7 :=
  relay_teardown.1
    { aDone := true, bDone := false, bPending := 7, chanMsgs := 1,
      phase := HPhase.waiting } rfl (by decide)

/-- C1: when the ReadingHello phase completes, the buffered bytes are
exactly the first 5 + declared-payload-length bytes of the client stream
(record header plus declared payload), and the byte sequence delivered to
the backend through the composed reader is exactly that buffer, in
original order, followed by — and only then — the live remainder of the
client stream. -/
theorem replay_before_live (cs buf live : GoBytes)
    (h : helloRead cs = some (buf, live)) :
    buf.length = 5 + declaredLen cs ∧
    buf = cs.take (5 + declaredLen cs) ∧
    live = cs.drop (5 + declaredLen cs) ∧
    (backendInput buf live).take buf.length = buf ∧
    (backendInput buf live).drop buf.length = live ∧
    backendInput buf live = cs := by
  match cs with
  | [] => simp [helloRead] at h
  | [_] => simp [helloRead] at h
  | [_, _] => simp [helloRead] at h
  | [_, _, _] => simp [helloRead] at h
  | [_, _, _, _] => simp [helloRead] at h
  | b0 :: b1 :: b2 :: l0 :: l1 :: rest =>
    simp only [helloRead] at h
    split at h
    case isTrue hle =>
      rw [Option.some.injEq, Prod.mk.injEq] at h
      obtain ⟨hbuf, hlive⟩ := h
      subst hbuf
      subst hlive
      have hdl : declaredLen (b0 :: b1 :: b2 :: l0 :: l1 :: rest) = be16 l0 l1 :=
        rfl
      have hlen : ([b0, b1, b2, l0, l1] ++ rest.take (be16 l0 l1)).length =
          5 + be16 l0 l1 := by
        simp [List.length_take, Nat.min_eq_left hle]
        omega
      have hcs : b0 :: b1 :: b2 :: l0 :: l1 :: rest =
          ([b0, b1, b2, l0, l1] ++ rest.take (be16 l0 l1)) ++
            rest.drop (be16 l0 l1) := by
        rw [List.append_assoc, List.take_append_drop]
        rfl
      refine ⟨hdl ▸ hlen, ?_, ?_, ?_, ?_, ?_⟩
      · rw [hdl, hcs, ← hlen]
        exact (List.take_left _ _).symm
      · rw [hdl, hcs, ← hlen]
        exact (List.drop_left _ _).symm
      · simp only [backendInput]
        exact List.take_left _ _
      · simp only [backendInput]
        exact List.drop_left _ _
      · simp only [backendInput]
        exact hcs.symm
    case isFalse => exact absurd h (by simp)

/-- Witness for C1 on a concrete 9-byte client stream with declared
payload length 2: the backend input is the buffered 7-byte prefix
followed by the 2 live bytes, i.e. the original stream. -/
theorem replay_before_live_witness :
    backendInput [22, 3, 1, 0, 2, 9, 9] [7, 7] = [22, 3, 1, 0, 2, 9, 9, 7, 7] :=
  (replay_before_live [22, 3, 1, 0, 2, 9, 9, 7, 7] [22, 3, 1, 0, 2, 9, 9]
    [7, 7] (by decide)).2.2.2.2.2

/-- Events that create a dialer, dial a backend, or move payload bytes to
either peer. -/
def backendActivity (e : Ev) : Bool :=
  match e with
  | .dialerCreated => true
  | .dialBackend _ => true
  | .sendBackend _ => true
  | .sendClient _ => true
  | _ => false

/-- C2: a connection whose SNI extraction fails, yields an empty
hostname, or whose hostname has no route, produces exactly the trace
set-deadline, the two buffering reads, a log line and the client close:
no dialer is created, no backend is dialed, and no byte is sent to the
client or to any backend. -/
theorem reject_no_backend (cs : GoBytes) (rm : RouteMap) (dialOk : Bool)
    (backendBytes : GoBytes) (copyErr : Bool) (buf live : GoBytes)
    (hread : helloRead cs = some (buf, live))
    (hrej : (ParseClientHello buf).2 = false ∨
      (ParseClientHello buf).1.SNI = [] ∨
      rm.Lookup (ParseClientHello buf).1.SNI = none) :
    handleConnTrace cs rm dialOk backendBytes copyErr =
      [Ev.setDeadline 10, Ev.readClient (buf.take 5),
       Ev.readClient (buf.drop 5), Ev.logLine, Ev.closeClient] ∧
    (handleConnTrace cs rm dialOk backendBytes copyErr).filter backendActivity
      = [] ∧
    Ev.logLine ∈ handleConnTrace cs rm dialOk backendBytes copyErr ∧
    Ev.closeClient ∈ handleConnTrace cs rm dialOk backendBytes copyErr := by
  match cs with
  | [] => simp [helloRead] at hread
  | [_] => simp [helloRead] at hread
  | [_, _] => simp [helloRead] at hread
  | [_, _, _] => simp [helloRead] at hread
  | [_, _, _, _] => simp [helloRead] at hread
  | b0 :: b1 :: b2 :: l0 :: l1 :: rest =>
    simp only [helloRead] at hread
    split at hread
    case isFalse => exact absurd hread (by simp)
    case isTrue hle =>
      rw [Option.some.injEq, Prod.mk.injEq] at hread
      obtain ⟨hbuf, hlive⟩ := hread
      subst hbuf
      subst hlive
      have h5 : (([b0, b1, b2, l0, l1] : GoBytes) ++
          rest.take (be16 l0 l1)).take 5 = [b0, b1, b2, l0, l1] :=
        List.take_left' rfl
      have hd5 : (([b0, b1, b2, l0, l1] : GoBytes) ++
          rest.take (be16 l0 l1)).drop 5 = rest.take (be16 l0 l1) :=
        List.drop_left' rfl
      have heq : handleConnTrace (b0 :: b1 :: b2 :: l0 :: l1 :: rest) rm
          dialOk backendBytes copyErr =
          [Ev.setDeadline 10, Ev.readClient [b0, b1, b2, l0, l1],
           Ev.readClient (rest.take (be16 l0 l1)), Ev.logLine,
           Ev.closeClient] := by
        by_cases hc :
            (!(ParseClientHello ([b0, b1, b2, l0, l1] ++
                rest.take (be16 l0 l1))).2 ||
              (ParseClientHello ([b0, b1, b2, l0, l1] ++
                rest.take (be16 l0 l1))).1.SNI.isEmpty) = true
        · simp only [handleConnTrace]
          rw [if_pos hle, if_pos hc]
        · have hlk : rm.Lookup (ParseClientHello ([b0, b1, b2, l0, l1] ++
              rest.take (be16 l0 l1))).1.SNI = none := by
            rcases hrej with hok | hsni | hlk
            · exact absurd
                (show _ = true by simp only [hok, Bool.not_false, Bool.true_or])
                hc
            · exact absurd
                (show _ = true by
                  simp only [hsni, List.isEmpty_nil, Bool.or_true])
                hc
            · exact hlk
          simp only [handleConnTrace]
          rw [if_pos hle, if_neg hc, hlk]
      refine ⟨by rw [heq, h5, hd5], by rw [heq]; rfl, by rw [heq]; simp,
        by rw [heq]; simp⟩

/-- Witness for C2: a 6-byte client stream whose record is complete but
whose payload is not a ClientHello, against the example.com table: the
trace is the rejection trace with no backend activity. -/
theorem reject_no_backend_witness :
    handleConnTrace [22, 3, 1, 0, 1, 7] exampleTable true [] false =
      [Ev.setDeadline 10,
       Ev.readClient (([22, 3, 1, 0, 1, 7] : GoBytes).take 5),
       Ev.readClient (([22, 3, 1, 0, 1, 7] : GoBytes).drop 5), Ev.logLine,
       Ev.closeClient] ∧
    (handleConnTrace [22, 3, 1, 0, 1, 7] exampleTable true [] false).filter
      backendActivity = [] ∧
    Ev.logLine ∈ handleConnTrace [22, 3, 1, 0, 1, 7] exampleTable true [] false ∧
    Ev.closeClient ∈
      handleConnTrace [22, 3, 1, 0, 1, 7] exampleTable true [] false :=
  reject_no_backend [22, 3, 1, 0, 1, 7] exampleTable true [] false
    [22, 3, 1, 0, 1, 7] [] (by decide) (Or.inl (by decide))

/-- Dial events, for locating the backend dial in a trace. -/
def isDialEv (e : Ev) : Bool :=
  match e with
  | .dialBackend _ => true
  | _ => false

/-- C8: the 10-second read deadline is set as the first action of every
connection; the only client reads that run under it (before the
clear-deadline event, or ever, when the connection is rejected first)
are the two buffering reads of the ClientHello, so no client read after
the buffer is complete is subject to the deadline; the backend dial is
likewise never under the deadline. -/
theorem deadline_scope (cs : GoBytes) (rm : RouteMap) (dialOk : Bool)
    (backendBytes : GoBytes) (copyErr : Bool) :
    (handleConnTrace cs rm dialOk backendBytes copyErr).head? =
      some (Ev.setDeadline 10) ∧
    countReads (beforeClear (handleConnTrace cs rm dialOk backendBytes
      copyErr)) ≤ 2 ∧
    (beforeClear (handleConnTrace cs rm dialOk backendBytes copyErr)).filter
      isDialEv = [] := by
  refine ⟨rfl, ?_⟩
  match cs with
  | [] => simp [handleConnTrace, beforeClear, countReads, isDialEv]
  | [_] => simp [handleConnTrace, beforeClear, countReads, isDialEv]
  | [_, _] => simp [handleConnTrace, beforeClear, countReads, isDialEv]
  | [_, _, _] => simp [handleConnTrace, beforeClear, countReads, isDialEv]
  | [_, _, _, _] => simp [handleConnTrace, beforeClear, countReads, isDialEv]
  | b0 :: b1 :: b2 :: l0 :: l1 :: rest =>
    simp only [handleConnTrace]
    by_cases hle : be16 l0 l1 ≤ rest.length
    · rw [if_pos hle]
      by_cases hc :
          (!(ParseClientHello ([b0, b1, b2, l0, l1] ++
              rest.take (be16 l0 l1))).2 ||
            (ParseClientHello ([b0, b1, b2, l0, l1] ++
              rest.take (be16 l0 l1))).1.SNI.isEmpty) = true
      · rw [if_pos hc]
        simp [beforeClear, countReads, isDialEv]
      · rw [if_neg hc]
        rcases hlk : rm.Lookup (ParseClientHello ([b0, b1, b2, l0, l1] ++
            rest.take (be16 l0 l1))).1.SNI with _ | cfg
        · simp [beforeClear, countReads, isDialEv]
        · rcases hcd : createDialer cfg.ProxyAddr 10 with e | f
          · simp [beforeClear, countReads, isDialEv, hcd]
          · rcases dialOk with _ | _
            · simp [beforeClear, countReads, isDialEv, hcd]
            · rcases copyErr with _ | _ <;>
                simp [beforeClear, countReads, isDialEv, hcd]
    · rw [if_neg hle]
      simp [beforeClear, countReads, isDialEv]

theorem splitLast_eq_none {c : Char} {ws : GoString}
    (h : ∀ x ∈ ws, x ≠ c) : splitLast c ws = none := by
  induction ws with
  | nil => rfl
  | cons x xs ih =>
    have hx : x ≠ c := h x (List.mem_cons_self x xs)
    simp only [splitLast, ih (fun y hy => h y (List.mem_cons_of_mem x hy))]
    rw [if_neg hx]

theorem splitLast_append_last {c : Char} (r : GoString) {ws : GoString}
    (h : ∀ x ∈ ws, x ≠ c) : splitLast c (r ++ c :: ws) = some (r, ws) := by
  induction r with
  | nil =>
    have h0 : splitLast c ([] ++ c :: ws) =
        match splitLast c ws with
        | some (p, q) => some (c :: p, q)
        | none => if c = c then some ([], ws) else none := rfl
    rw [h0, splitLast_eq_none h]
    simp
  | cons a r' ih =>
    have h0 : splitLast c ((a :: r') ++ c :: ws) =
        match splitLast c (r' ++ c :: ws) with
        | some (p, q) => some (a :: p, q)
        | none => if a = c then some ([], r' ++ c :: ws) else none := rfl
    rw [h0, ih]

theorem trimSpace_all_space {ws : GoString}
    (h : ∀ x ∈ ws, goIsSpace x = true) : trimSpace ws = [] := by
  unfold trimSpace
  rw [List.dropWhile_eq_nil_iff.mpr (fun x hx => h x hx)]
  rfl

theorem parseRouteRest_no_invalidProxy (remainder proxyAddr route a :
    GoString) : parseRouteRest remainder proxyAddr route ≠
    .error (.invalidProxy a) := by
  intro h
  unfold parseRouteRest at h
  repeat' split at h
  all_goals simp_all

theorem parseRouteRest_proxyAddr {remainder proxyAddr route : GoString}
    {cfg : RouteConfig}
    (h : parseRouteRest remainder proxyAddr route = .ok cfg) :
    cfg.ProxyAddr = proxyAddr := by
  unfold parseRouteRest at h
  repeat' split at h
  all_goals simp_all
  all_goals rw [← h]

/-- C9 (amended): when the last at-sign of a route string is followed
only by white space or nothing, parseRoute never returns an
invalid-proxy error, and any descriptor it does return carries an empty
proxy address — the trailing at-sign contributes no proxy.  (The original
claim's stronger phrasing — that such a string always parses
successfully, exactly as without the at-sign — fails; see the
counterexample.) -/
theorem trailing_at_no_proxy (r ws : GoString)
    (hws : ∀ x ∈ ws, goIsSpace x = true) :
    (∀ a, parseRoute (r ++ '@' :: ws) ≠ .error (.invalidProxy a)) ∧
    (∀ cfg, parseRoute (r ++ '@' :: ws) = .ok cfg → cfg.ProxyAddr = []) := by
  have hnc : ∀ x ∈ ws, x ≠ '@' := by
    intro x hx he
    have hsp := hws x hx
    rw [he] at hsp
    exact absurd hsp (by decide)
  have hsplit : splitLast '@' (r ++ '@' :: ws) = some (r, ws) :=
    splitLast_append_last r hnc
  have htrim : trimSpace ws = [] := trimSpace_all_space hws
  have hred : parseRoute (r ++ '@' :: ws) =
      parseRouteRest (trimSpace r) [] (r ++ '@' :: ws) := by
    unfold parseRoute
    rw [hsplit]
    simp [htrim]
  constructor
  · intro a
    rw [hred]
    exact parseRouteRest_no_invalidProxy _ _ _ a
  · intro cfg hcfg
    rw [hred] at hcfg
    exact parseRouteRest_proxyAddr hcfg

/-- Counterexample to C9 as stated: example.com:443@ has its last
at-sign followed by nothing, yet parseRoute does not succeed — it fails
with the old-format error (the same error the string without the at-sign
gets); and a@b@ succeeds as a passthrough for host a@b while a@b (the
at-sign removed) fails with an invalid-proxy error, so the result is not
always as if the at-sign had not been written. -/
theorem trailing_at_counterexample :
    gs "example.com:443@" = gs "example.com:443" ++ '@' :: [] ∧
    (parseRoute (gs "example.com:443@")).isOk = false ∧
    parseRoute (gs "example.com:443@") =
      .error (.invalidFormat (gs "example.com:443@")) ∧
    gs "a@b@" = gs "a@b" ++ '@' :: [] ∧
    parseRoute (gs "a@b@") =
      .ok { Host := gs "a@b", Target := [], Passthrough := true,
            ProxyAddr := [] } ∧
    parseRoute (gs "a@b") = .error (.invalidProxy (gs "b")) := by
  refine ⟨by decide, by decide, by decide, by decide, by decide, by decide⟩

/-- Witness for C9 (amended) at the concrete route example.com followed
by an at-sign and a space: the parsed descriptor's proxy address is
empty. -/
theorem trailing_at_no_proxy_witness :
    ({ Host := gs "example.com", Target := [], Passthrough := true,
       ProxyAddr := [] } : RouteConfig).ProxyAddr = ([] : GoString) :=
  (trailing_at_no_proxy (gs "example.com") [' '] (by decide)).2
    { Host := gs "example.com", Target := [], Passthrough := true,
      ProxyAddr := [] } (by decide)

theorem hasHost_insert {rm : RouteMap} {h : GoString}
    (hm : rm.hasHost h = true) (p : GoString × RouteConfig) :
    RouteMap.hasHost { rules := rm.rules ++ [p] } h = true := by
  unfold RouteMap.hasHost at hm ⊢
  rw [List.any_append, hm, Bool.true_or]

theorem parseRoutesGo_not_ok (rs : List GoString) :
    ∀ (rm : RouteMap) (r : GoString) (cfg : RouteConfig), r ∈ rs →
    parseRoute r = .ok cfg → rm.hasHost cfg.Host = true →
    ∀ rm', parseRoutesGo rm rs ≠ .ok rm' := by
  induction rs with
  | nil =>
    intro rm r cfg hr
    exact absurd hr (List.not_mem_nil r)
  | cons x xs ih =>
    intro rm r cfg hr hparse hmem rm' hok
    rcases hpx : parseRoute x with e | cfgx
    · have step : parseRoutesGo rm (x :: xs) = .error e := by
        simp only [parseRoutesGo]
        rw [hpx]
      rw [step] at hok
      exact Except.noConfusion hok
    · have step : parseRoutesGo rm (x :: xs) =
          if rm.hasHost cfgx.Host = true then
            Except.error (RouteErr.duplicateRoute cfgx.Host)
          else parseRoutesGo { rules := rm.rules ++ [(cfgx.Host, cfgx)] } xs := by
        simp only [parseRoutesGo]
        rw [hpx]
      rw [step] at hok
      by_cases hdup : rm.hasHost cfgx.Host = true
      · rw [if_pos hdup] at hok
        exact Except.noConfusion hok
      · rw [if_neg hdup] at hok
        rcases List.mem_cons.mp hr with rfl | hr'
        · rw [hparse] at hpx
          have hcc : cfg = cfgx := Except.ok.inj hpx
          exact hdup (hcc ▸ hmem)
        · exact ih { rules := rm.rules ++ [(cfgx.Host, cfgx)] } r cfg hr'
            hparse (hasHost_insert hmem _) rm' hok

theorem parseRoutesGo_split (l1 : List GoString) :
    ∀ (rm : RouteMap) (rest : List GoString) (rm' : RouteMap),
    parseRoutesGo rm (l1 ++ rest) = .ok rm' →
    ∃ rmMid, parseRoutesGo rm l1 = .ok rmMid ∧
      parseRoutesGo rmMid rest = .ok rm' := by
  induction l1 with
  | nil =>
    intro rm rest rm' h
    exact ⟨rm, rfl, h⟩
  | cons x xs ih =>
    intro rm rest rm' h
    rw [List.cons_append] at h
    rcases hpx : parseRoute x with e | cfgx
    · have step : ∀ ys, parseRoutesGo rm (x :: ys) = .error e := by
        intro ys
        simp only [parseRoutesGo]
        rw [hpx]
      rw [step] at h
      exact Except.noConfusion h
    · have step : ∀ ys, parseRoutesGo rm (x :: ys) =
          if rm.hasHost cfgx.Host = true then
            Except.error (RouteErr.duplicateRoute cfgx.Host)
          else parseRoutesGo { rules := rm.rules ++ [(cfgx.Host, cfgx)] } ys := by
        intro ys
        simp only [parseRoutesGo]
        rw [hpx]
      rw [step] at h
      rw [step xs]
      by_cases hdup : rm.hasHost cfgx.Host = true
      · rw [if_pos hdup] at h
        exact Except.noConfusion h
      · rw [if_neg hdup] at h
        rw [if_neg hdup]
        exact ih _ rest rm' h

theorem parseRoutesGo_all_ok (rs : List GoString)
    (hall : ∀ r ∈ rs, (parseRoute r).isOk = true) :
    ∀ rm : RouteMap, (∃ rm', parseRoutesGo rm rs = .ok rm') ∨
      ∃ h, parseRoutesGo rm rs = .error (.duplicateRoute h) := by
  induction rs with
  | nil =>
    intro rm
    exact Or.inl ⟨rm, rfl⟩
  | cons x xs ih =>
    intro rm
    rcases hpx : parseRoute x with e | cfgx
    · have := hall x (List.mem_cons_self x xs)
      rw [hpx] at this
      exact absurd this (by simp [Except.isOk, Except.toBool])
    · by_cases hdup : rm.hasHost cfgx.Host = true
      · refine Or.inr ⟨cfgx.Host, ?_⟩
        simp only [parseRoutesGo, hpx]
        rw [if_pos hdup]
      · have step : parseRoutesGo rm (x :: xs) =
            parseRoutesGo { rules := rm.rules ++ [(cfgx.Host, cfgx)] } xs := by
          simp only [parseRoutesGo, hpx]
          rw [if_neg hdup]
        rw [step]
        exact ih (fun r hr => hall r (List.mem_cons_of_mem x hr)) _

/-- C5 (amended): a list of route strings among which two individually
valid strings share a hostname never yields a route table — construction
always fails, whatever the order and whatever else the list contains;
and when every string in the list is individually valid, the failure is
specifically the duplicate-route error.  (As originally stated — that
the failure is always the duplicate-route error — the claim fails when
an invalid string precedes the duplicate; see the counterexample.) -/
theorem duplicate_routes_fail (l1 l2 l3 : List GoString) (r1 r2 : GoString)
    (c1 c2 : RouteConfig) (hp1 : parseRoute r1 = .ok c1)
    (hp2 : parseRoute r2 = .ok c2) (hh : c1.Host = c2.Host) :
    (∀ rm', parseRoutes (l1 ++ r1 :: (l2 ++ r2 :: l3)) ≠ .ok rm') ∧
    ((∀ r ∈ l1 ++ r1 :: (l2 ++ r2 :: l3), (parseRoute r).isOk = true) →
      ∃ h, parseRoutes (l1 ++ r1 :: (l2 ++ r2 :: l3)) =
        .error (.duplicateRoute h)) := by
  have main : ∀ rm', parseRoutes (l1 ++ r1 :: (l2 ++ r2 :: l3)) ≠ .ok rm' := by
    intro rm' hok
    unfold parseRoutes at hok
    obtain ⟨m1, _, h2⟩ := parseRoutesGo_split l1 _ _ _ hok
    simp only [parseRoutesGo, hp1] at h2
    by_cases hdup : m1.hasHost c1.Host = true
    · rw [if_pos hdup] at h2
      exact Except.noConfusion h2
    · rw [if_neg hdup] at h2
      refine parseRoutesGo_not_ok (l2 ++ r2 :: l3) _ r2 c2 (by simp) hp2
        ?_ rm' h2
      rw [← hh]
      unfold RouteMap.hasHost
      simp
  refine ⟨main, fun hall => ?_⟩
  rcases parseRoutesGo_all_ok _ hall { rules := [] } with ⟨rm', hok⟩ | hdup
  · exact absurd hok (main rm')
  · exact hdup

/-- Counterexample to C5 as stated: the list with the invalid string x:1
followed by the valid route a.com twice contains two individually valid
route strings sharing a hostname, yet parseRoutes fails with the
old-format error of x:1, not with a duplicate-route error. -/
theorem duplicate_routes_counterexample :
    (parseRoute (gs "a.com")).isOk = true ∧
    parseRoutes [gs "x:1", gs "a.com", gs "a.com"] =
      .error (.invalidFormat (gs "x:1")) := by
  refine ⟨by decide, by decide⟩

/-- Witness for C5 (amended) on the concrete two-element list a.com,
a.com: construction fails with the duplicate-route error. -/
theorem duplicate_routes_fail_witness :
    ∃ h, parseRoutes ([] ++ gs "a.com" :: ([] ++ gs "a.com" :: [])) =
      .error (.duplicateRoute h) :=
  (duplicate_routes_fail [] [] [] (gs "a.com") (gs "a.com")
    { Host := gs "a.com", Target := [], Passthrough := true, ProxyAddr := [] }
    { Host := gs "a.com", Target := [], Passthrough := true, ProxyAddr := [] }
    (by decide) (by decide) rfl).2 (by decide)

theorem be16_enc (n : Nat) : be16 (n / 256) (n % 256) = n := by
  unfold be16
  omega

theorem be24_enc (n : Nat) :
    be24 (n / 65536) (n / 256 % 256) (n % 256) = n := by
  unfold be24
  omega

theorem skipLen1_enc (l rest : GoBytes) :
    skipLen1 ((l.length :: l) ++ rest) = some rest := by
  have h : skipLen1 ((l.length :: l) ++ rest) =
      if l.length ≤ (l ++ rest).length then some ((l ++ rest).drop l.length)
      else none := rfl
  rw [h, if_pos (by simp), List.drop_left]

theorem skipLen2_enc (l rest : GoBytes) :
    skipLen2 ((enc16 l.length ++ l) ++ rest) = some rest := by
  have h : (enc16 l.length ++ l) ++ rest =
      l.length / 256 :: l.length % 256 :: (l ++ rest) := by
    simp [enc16]
  rw [h]
  have h2 : skipLen2 (l.length / 256 :: l.length % 256 :: (l ++ rest)) =
      if be16 (l.length / 256) (l.length % 256) ≤ (l ++ rest).length then
        some ((l ++ rest).drop (be16 (l.length / 256) (l.length % 256)))
      else none := rfl
  rw [h2, be16_enc, if_pos (by simp), List.drop_left]

theorem findName_cons (e : SNIName) (rest : GoBytes) :
    findName (encName e ++ rest) =
      if e.nameType = 0 then some e.name else findName rest := by
  have h : encName e ++ rest =
      e.nameType :: e.name.length / 256 :: e.name.length % 256 ::
        (e.name ++ rest) := by
    simp [encName, enc16]
  rw [h]
  simp only [findName]
  rw [be16_enc, if_pos (by simp), List.take_left, List.drop_left]

theorem findName_flat_none (entries : List SNIName)
    (h : ∀ e ∈ entries, e.nameType ≠ 0) :
    findName ((entries.map encName).flatten) = none := by
  induction entries with
  | nil => simp [findName]
  | cons e es ih =>
    have hx : ((e :: es).map encName).flatten =
        encName e ++ ((es.map encName).flatten) := by simp
    rw [hx, findName_cons, if_neg (h e (List.mem_cons_self e es))]
    exact ih (fun y hy => h y (List.mem_cons_of_mem e hy))

theorem findName_flat_first (epre : List SNIName) (e : SNIName)
    (epost : List SNIName) (hpre : ∀ y ∈ epre, y.nameType ≠ 0)
    (he : e.nameType = 0) :
    findName (((epre ++ e :: epost).map encName).flatten) = some e.name := by
  induction epre with
  | nil =>
    simp only [List.nil_append, List.map_cons, List.flatten_cons]
    rw [findName_cons, if_pos he]
  | cons y ys ih =>
    simp only [List.cons_append, List.map_cons, List.flatten_cons]
    rw [findName_cons, if_neg (hpre y (List.mem_cons_self y ys))]
    exact ih (fun z hz => hpre z (List.mem_cons_of_mem y hz))

theorem parseServerName_enc (entries : List SNIName) :
    parseServerName (encSN entries) =
      findName ((entries.map encName).flatten) := by
  have h : encSN entries =
      ((entries.map encName).flatten).length / 256 ::
        ((entries.map encName).flatten).length % 256 ::
        ((entries.map encName).flatten) := by
    simp [encSN, enc16]
  rw [h]
  simp only [parseServerName]
  rw [be16_enc, if_pos (Nat.le_refl _), List.take_length]

theorem findSNIExt_cons (x : TLSExt) (rest : GoBytes) :
    findSNIExt (encExt x ++ rest) =
      if x.extType = 0 then parseServerName x.extData
      else findSNIExt rest := by
  have h : encExt x ++ rest = x.extType / 256 :: x.extType % 256 ::
      x.extData.length / 256 :: x.extData.length % 256 ::
      (x.extData ++ rest) := by
    simp [encExt, enc16]
  rw [h]
  simp only [findSNIExt]
  rw [be16_enc, be16_enc, if_pos (by simp), List.take_left, List.drop_left]

theorem findSNIExt_none (xs : List TLSExt)
    (h : ∀ x ∈ xs, x.extType ≠ 0) : findSNIExt (encExts xs) = none := by
  induction xs with
  | nil => simp [encExts, findSNIExt]
  | cons x rest ih =>
    have hx : encExts (x :: rest) = encExt x ++ encExts rest := by
      simp [encExts]
    rw [hx, findSNIExt_cons, if_neg (h x (List.mem_cons_self x rest))]
    exact ih (fun y hy => h y (List.mem_cons_of_mem x hy))

theorem findSNIExt_first (pre : List TLSExt) (x : TLSExt)
    (post : List TLSExt) (hpre : ∀ y ∈ pre, y.extType ≠ 0)
    (hx : x.extType = 0) :
    findSNIExt (encExts (pre ++ x :: post)) = parseServerName x.extData := by
  induction pre with
  | nil =>
    have h0 : encExts (x :: post) = encExt x ++ encExts post := by
      simp [encExts]
    rw [List.nil_append, h0, findSNIExt_cons, if_pos hx]
  | cons y ys ih =>
    have h0 : encExts (y :: (ys ++ x :: post)) =
        encExt y ++ encExts (ys ++ x :: post) := by
      simp [encExts]
    rw [List.cons_append, h0, findSNIExt_cons,
      if_neg (hpre y (List.mem_cons_self y ys))]
    exact ih (fun z hz => hpre z (List.mem_cons_of_mem y hz))

theorem extBlock_enc (exts : GoBytes) :
    extBlock (enc16 exts.length ++ exts) = findSNIExt exts := by
  have h : enc16 exts.length ++ exts =
      exts.length / 256 :: exts.length % 256 :: exts := by
    simp [enc16]
  rw [h]
  simp only [extBlock]
  rw [be16_enc, if_pos (Nat.le_refl _), List.take_length]

theorem parseHelloBody_shape (lvrnd sid cs cm exts : GoBytes)
    (h34 : lvrnd.length = 34) :
    parseHelloBody (lvrnd ++ ((sid.length :: sid) ++
      ((enc16 cs.length ++ cs) ++ ((cm.length :: cm) ++
        (enc16 exts.length ++ exts))))) = findSNIExt exts := by
  have hle : 34 ≤ (lvrnd ++ ((sid.length :: sid) ++
      ((enc16 cs.length ++ cs) ++ ((cm.length :: cm) ++
        (enc16 exts.length ++ exts))))).length := by
    rw [List.length_append, h34]
    exact Nat.le_add_right _ _
  simp only [parseHelloBody]
  rw [if_pos hle, ← h34, List.drop_left, skipLen1_enc, Option.some_bind,
    skipLen2_enc, Option.some_bind, skipLen1_enc, Option.some_bind,
    extBlock_enc]

theorem parseHelloBody_enc (ch : CHello) (hlv : ch.legacyVersion.length = 2)
    (hrnd : ch.random.length = 32) :
    parseHelloBody (encBody ch) = findSNIExt (encExts ch.extensions) := by
  have hsplit : encBody ch = (ch.legacyVersion ++ ch.random) ++
      ((ch.sessionId.length :: ch.sessionId) ++
        ((enc16 ch.cipherSuites.length ++ ch.cipherSuites) ++
          ((ch.compressionMethods.length :: ch.compressionMethods) ++
            (enc16 (encExts ch.extensions).length ++
              encExts ch.extensions)))) := by
    simp [encBody, encBodyCore, List.append_assoc]
  rw [hsplit]
  exact parseHelloBody_shape _ _ _ _ _ (by simp [hlv, hrnd])

theorem parseHandshakeMsg_enc (body : GoBytes) :
    parseHandshakeMsg (wrapMsg body) = parseHelloBody body := by
  have h : wrapMsg body = 1 :: body.length / 65536 ::
      body.length / 256 % 256 :: body.length % 256 :: body := by
    simp [wrapMsg, enc24]
  rw [h]
  simp only [parseHandshakeMsg]
  rw [if_pos trivial, be24_enc, if_pos (Nat.le_refl _), List.take_length]

theorem parseCHRecord_enc (v1 v2 : Nat) (msg : GoBytes) :
    parseCHRecord (wrapRecord v1 v2 msg) = parseHandshakeMsg msg := by
  have h : wrapRecord v1 v2 msg = 22 :: v1 :: v2 :: msg.length / 256 ::
      msg.length % 256 :: msg := by
    simp [wrapRecord, enc16]
  rw [h]
  simp only [parseCHRecord]
  rw [if_pos trivial, be16_enc, if_pos (Nat.le_refl _), List.take_length]

theorem parseHelloBody_core_none (lvrnd sid cs cm : GoBytes)
    (h34 : lvrnd.length = 34) :
    parseHelloBody (lvrnd ++ ((sid.length :: sid) ++
      ((enc16 cs.length ++ cs) ++ (cm.length :: cm)))) = none := by
  have hle : 34 ≤ (lvrnd ++ ((sid.length :: sid) ++
      ((enc16 cs.length ++ cs) ++ (cm.length :: cm)))).length := by
    rw [List.length_append, h34]
    exact Nat.le_add_right _ _
  simp only [parseHelloBody]
  rw [if_pos hle, ← h34, List.drop_left, skipLen1_enc, Option.some_bind,
    skipLen2_enc, Option.some_bind]
  have h1 : skipLen1 (cm.length :: cm) = some (cm.drop cm.length) := by
    simp [skipLen1]
  rw [h1, Option.some_bind, List.drop_length]
  rfl

theorem ParseClientHello_of_none {buf : GoBytes}
    (h : parseCHRecord buf = none) :
    ParseClientHello buf = ({ SNI := [] }, false) := by
  unfold ParseClientHello
  rw [h]

theorem ParseClientHello_of_some {buf name : GoBytes}
    (h : parseCHRecord buf = some name) :
    ParseClientHello buf = ({ SNI := name.map Char.ofNat }, true) := by
  unfold ParseClientHello
  rw [h]

/-- C3 (spec-modelled SNI Extractor): (1) on the encoding of any
well-formed ClientHello record whose first type-0 extension carries a
server_name list whose first name-type-0 entry has name H, the extractor
returns (H, true); and it returns (empty, false) on (2) a well-formed
record whose ClientHello lacks the extensions block, (3) one whose
extensions contain no server_name extension, (4) any buffer whose record
type is not handshake, (5) any record whose handshake message type is not
client_hello, (6) any record header declaring a payload length exceeding
the remaining bytes, and (7) any handshake header declaring a body length
exceeding the remaining bytes — the over-length cases being exactly how
the parser refuses to read past the end of the buffer: every read is
bounds-checked and failure is a clean not-found. -/
theorem parseClientHello_spec :
    (∀ (v1 v2 : Nat) (ch : CHello) (pre : List TLSExt) (x : TLSExt)
      (post : List TLSExt) (epre : List SNIName) (e : SNIName)
      (epost : List SNIName),
      ch.wf →
      ch.extensions = pre ++ x :: post →
      (∀ y ∈ pre, y.extType ≠ 0) →
      x.extType = 0 →
      x.extData = encSN (epre ++ e :: epost) →
      (∀ y ∈ epre, y.nameType ≠ 0) →
      e.nameType = 0 →
      ParseClientHello (encRecord v1 v2 ch) =
        ({ SNI := e.name.map Char.ofNat }, true)) ∧
    (∀ (v1 v2 : Nat) (ch : CHello), ch.legacyVersion.length = 2 →
      ch.random.length = 32 →
      ParseClientHello (wrapRecord v1 v2 (wrapMsg (encBodyCore ch))) =
        ({ SNI := [] }, false)) ∧
    (∀ (v1 v2 : Nat) (ch : CHello), ch.legacyVersion.length = 2 →
      ch.random.length = 32 → (∀ x ∈ ch.extensions, x.extType ≠ 0) →
      ParseClientHello (encRecord v1 v2 ch) = ({ SNI := [] }, false)) ∧
    (∀ (b : Nat) (rest : GoBytes), b ≠ 22 →
      ParseClientHello (b :: rest) = ({ SNI := [] }, false)) ∧
    (∀ (v1 v2 m : Nat) (mrest : GoBytes), m ≠ 1 →
      ParseClientHello (wrapRecord v1 v2 (m :: mrest)) =
        ({ SNI := [] }, false)) ∧
    (∀ (rt v1 v2 l0 l1 : Nat) (rest : GoBytes), rest.length < be16 l0 l1 →
      ParseClientHello (rt :: v1 :: v2 :: l0 :: l1 :: rest) =
        ({ SNI := [] }, false)) ∧
    (∀ (v1 v2 b0 b1 b2 : Nat) (mrest : GoBytes),
      mrest.length < be24 b0 b1 b2 →
      ParseClientHello (wrapRecord v1 v2 (1 :: b0 :: b1 :: b2 :: mrest)) =
        ({ SNI := [] }, false)) := by
  refine ⟨?_, ?_, ?_, ?_, ?_, ?_, ?_⟩
  · intro v1 v2 ch pre x post epre e epost hwf hext hpre hx hdata hepre he
    obtain ⟨hlv, hrnd, _⟩ := hwf
    refine ParseClientHello_of_some ?_
    unfold encRecord
    rw [parseCHRecord_enc, parseHandshakeMsg_enc,
      parseHelloBody_enc ch hlv hrnd, hext,
      findSNIExt_first pre x post hpre hx, hdata, parseServerName_enc,
      findName_flat_first epre e epost hepre he]
  · intro v1 v2 ch hlv hrnd
    refine ParseClientHello_of_none ?_
    rw [parseCHRecord_enc, parseHandshakeMsg_enc]
    have hsplit : encBodyCore ch = (ch.legacyVersion ++ ch.random) ++
        ((ch.sessionId.length :: ch.sessionId) ++
          ((enc16 ch.cipherSuites.length ++ ch.cipherSuites) ++
            (ch.compressionMethods.length :: ch.compressionMethods))) := by
      simp [encBodyCore, List.append_assoc]
    rw [hsplit]
    exact parseHelloBody_core_none _ _ _ _ (by simp [hlv, hrnd])
  · intro v1 v2 ch hlv hrnd hno
    refine ParseClientHello_of_none ?_
    unfold encRecord
    rw [parseCHRecord_enc, parseHandshakeMsg_enc,
      parseHelloBody_enc ch hlv hrnd, findSNIExt_none ch.extensions hno]
  · intro b rest hb
    refine ParseClientHello_of_none ?_
    match rest with
    | [] => rfl
    | [_] => rfl
    | [_, _] => rfl
    | [_, _, _] => rfl
    | r1 :: r2 :: r3 :: r4 :: rr =>
      simp only [parseCHRecord]
      rw [if_neg hb]
  · intro v1 v2 m mrest hm
    refine ParseClientHello_of_none ?_
    rw [parseCHRecord_enc]
    match mrest with
    | [] => simp [parseHandshakeMsg]
    | [_] => simp [parseHandshakeMsg]
    | [_, _] => simp [parseHandshakeMsg]
    | b0 :: b1 :: b2 :: mr =>
      simp only [parseHandshakeMsg]
      rw [if_neg hm]
  · intro rt v1 v2 l0 l1 rest hlt
    refine ParseClientHello_of_none ?_
    by_cases hrt : rt = 22
    · simp only [parseCHRecord]
      rw [if_pos hrt, if_neg (by omega)]
    · simp only [parseCHRecord]
      rw [if_neg hrt]
  · intro v1 v2 b0 b1 b2 mrest hlt
    refine ParseClientHello_of_none ?_
    rw [parseCHRecord_enc]
    simp only [parseHandshakeMsg]
    rw [if_pos trivial, if_neg (by omega)]

/-- The bytes of the hostname a.test. -/
def exName : GoBytes := [97, 46, 116, 101, 115, 116]

/-- A server_name entry of name type 0 carrying a.test. -/
def exEntry : SNIName := { nameType := 0, name := exName }

/-- A server_name extension (type 0) carrying the single entry. -/
def exExt : TLSExt := { extType := 0, extData := encSN [exEntry] }

/-- A concrete well-formed ClientHello advertising SNI a.test. -/
def exCH : CHello :=
  { legacyVersion := [3, 3], random := List.replicate 32 0, sessionId := [],
    cipherSuites := [0, 47], compressionMethods := [0],
    extensions := [exExt] }

/-- Witness for C3 at concrete inputs: the encoding of the a.test
ClientHello parses to (a.test, true), and a buffer whose record type is
23 instead of handshake parses to not-found. -/
theorem parseClientHello_spec_witness :
    ParseClientHello (encRecord 3 1 exCH) =
      ({ SNI := exName.map Char.ofNat }, true) ∧
    ParseClientHello (23 :: [1, 2, 3, 4]) = ({ SNI := [] }, false) :=
  ⟨parseClientHello_spec.1 3 1 exCH [] exExt [] [] exEntry []
      (by unfold CHello.wf isBytes; decide) rfl (by simp) rfl rfl (by simp)
      rfl,
    parseClientHello_spec.2.2.2.1 23 [1, 2, 3, 4] (by decide)⟩
